import Mathlib

/-!
Shallow embedding of the Wirefish probing core (ICMP codec, socket
primitives, traceroute engine) and proofs of the specification claims.

Byte buffers are modelled as `List Nat` (each entry one octet, < 256 where
it matters).  Machine arithmetic follows the C source: the checksum
accumulator is a `uint32_t`, modelled as `Nat` with an explicit `% 2^32`;
16-bit reads of adjacent bytes are little-endian (the host order the C
code compiles to on the platforms it targets), and `htons` stores are
big-endian, exactly as `struct icmphdr` lays them out in memory.
-/

namespace Wirefish

/-! ## ICMP codec (src/tracer/icmp.c) -/

/-- The 16-bit words `icmp_checksum` reads from a byte buffer: pairs of
adjacent bytes as little-endian words; a trailing odd byte is zero-padded
into the low byte of a final word (`*(uint8_t *)&last = ...`). -/
def toWords16 : List Nat → List Nat
  | [] => []
  | [b] => [b]
  | b0 :: b1 :: rest => (b0 + 256 * b1) :: toWords16 rest

/-- The `uint32_t sum` accumulation loop of `icmp_checksum`:
`sum += *data++` with 32-bit wraparound. -/
def sum32 (ws : List Nat) : Nat :=
  ws.foldl (fun s w => (s + w) % 4294967296) 0

/-- One fuelled step sequence of the carry-fold loop
`while (sum >> 16) sum = (sum & 0xFFFF) + (sum >> 16);`.
Each executed iteration strictly decreases `sum`, so fuel `s` is enough
for the loop started at `s` (see `fold_go_lt`): `fold1071` below is the
exact loop. -/
def fold_go : Nat → Nat → Nat
  | 0, s => s
  | fuel + 1, s => if s < 65536 then s else fold_go fuel (s % 65536 + s / 65536)

/-- The carry-fold loop of `icmp_checksum`, run to completion. -/
def fold1071 (s : Nat) : Nat := fold_go s s

/-- `icmp_checksum`: sum 16-bit words into a wrapping 32-bit accumulator,
fold carries from bit 16 down until none remain, then return the 16-bit
truncation of the bitwise complement (`(uint16_t)(~sum)`). -/
def icmp_checksum (buf : List Nat) : Nat :=
  (4294967295 - fold1071 (sum32 (toWords16 buf))) % 65536

/-- `icmp_build_echo id seq payload`: 8-byte ICMP header
(type 8, code 0, checksum, `htons id`, `htons seq`) followed by the
payload; the checksum is computed over the packet with a zeroed checksum
field and stored little-endian (host order, no `htons`), exactly as the C
writes `hdr->checksum = icmp_checksum(out, total_len)`.  The `uint16_t`
parameters truncate their arguments to 16 bits.  (The C function returns
-1 only when `out`/`out_len` is NULL, which has no counterpart here.) -/
def icmp_build_echo (id seq : Nat) (payload : List Nat) : List Nat :=
  let idHi := (id % 65536) / 256
  let idLo := id % 256
  let seqHi := (seq % 65536) / 256
  let seqLo := seq % 256
  let base : List Nat := 8 :: 0 :: 0 :: 0 :: idHi :: idLo :: seqHi :: seqLo :: payload
  let ck := icmp_checksum base
  8 :: 0 :: (ck % 256) :: (ck / 256) :: idHi :: idLo :: seqHi :: seqLo :: payload

/-- Zero the two checksum bytes (offsets 2 and 3) of an ICMP packet. -/
def zeroChecksumField (pkt : List Nat) : List Nat :=
  (pkt.set 2 0).set 3 0

/-- The checksum value stored in an ICMP packet, read back the way the C
code wrote it (little-endian 16-bit field at offset 2). -/
def embeddedChecksum (pkt : List Nat) : Nat :=
  pkt.getD 2 0 + 256 * pkt.getD 3 0

/-- `icmp_parse_response`: needs at least a 20-byte IPv4 header; the IHL
field is the low nibble of byte 0; needs `ihl*4 + 8` bytes in total;
returns the ICMP type byte at offset `ihl*4`.  `none` models the branches
that set `*out_type = -1` and return -1. -/
def icmp_parse_response (packet : List Nat) : Option Nat :=
  if packet.length < 20 then none
  else
    let iphdrLen := ((packet.getD 0 0) % 16) * 4
    if packet.length < iphdrLen + 8 then none
    else some (packet.getD iphdrLen 0)

/-! ## Arithmetic lemmas for the RFC 1071 fold -/

theorem fold_go_mod (fuel : Nat) : ∀ s : Nat, fold_go fuel s % 65535 = s % 65535 := by
  induction fuel with
  | zero => intro s; rfl
  | succ n ih =>
    intro s
    rw [fold_go]
    by_cases h : s < 65536
    · simp [h]
    · simp only [h, if_false]
      rw [ih]
      omega

theorem fold_go_le (fuel : Nat) : ∀ s : Nat, fold_go fuel s ≤ s := by
  induction fuel with
  | zero => intro s; exact Nat.le_refl s
  | succ n ih =>
    intro s
    rw [fold_go]
    by_cases h : s < 65536
    · simp [h]
    · simp only [h, if_false]
      exact le_trans (ih _) (by omega)

theorem fold_go_lt (fuel : Nat) : ∀ s : Nat, s ≤ fuel → fold_go fuel s < 65536 := by
  induction fuel with
  | zero => intro s hs; rw [fold_go]; omega
  | succ n ih =>
    intro s hs
    rw [fold_go]
    by_cases h : s < 65536
    · simp [h]
    · simp only [h, if_false]
      exact ih _ (by omega)

theorem fold_go_pos (fuel : Nat) : ∀ s : Nat, 0 < s → 0 < fold_go fuel s := by
  induction fuel with
  | zero => intro s hs; exact hs
  | succ n ih =>
    intro s hs
    rw [fold_go]
    by_cases h : s < 65536
    · simpa [h] using hs
    · simp only [h, if_false]
      exact ih _ (by omega)

theorem fold1071_mod (s : Nat) : fold1071 s % 65535 = s % 65535 :=
  fold_go_mod s s

theorem fold1071_le (s : Nat) : fold1071 s ≤ s :=
  fold_go_le s s

theorem fold1071_lt (s : Nat) : fold1071 s < 65536 :=
  fold_go_lt s s (Nat.le_refl s)

theorem fold1071_pos (s : Nat) (h : 0 < s) : 0 < fold1071 s :=
  fold_go_pos s s h

/-- A sum divisible by 65535 that is positive folds to exactly 65535. -/
theorem fold1071_eq_ffff (s : Nat) (hpos : 0 < s) (hdvd : 65535 ∣ s) :
    fold1071 s = 65535 := by
  have h1 := fold1071_mod s
  have h2 := fold1071_lt s
  have h3 := fold1071_pos s hpos
  obtain ⟨k, hk⟩ := hdvd
  omega

/-- The 32-bit accumulator never wraps when the plain sum stays below 2^32. -/
theorem sum32_eq_sum (ws : List Nat) (h : ws.sum < 4294967296) : sum32 ws = ws.sum := by
  suffices H : ∀ (l : List Nat) (a : Nat), a + l.sum < 4294967296 →
      l.foldl (fun s w => (s + w) % 4294967296) a = a + l.sum by
    simpa using H ws 0 (by simpa using h)
  intro l
  induction l with
  | nil => intro a _; simp
  | cons x xs ih =>
    intro a ha
    simp only [List.foldl_cons, List.sum_cons] at *
    rw [Nat.mod_eq_of_lt (by omega), ih (a + x) (by omega)]
    omega

theorem toWords16_mem_lt : ∀ bs : List Nat, (∀ b ∈ bs, b < 256) →
    ∀ w ∈ toWords16 bs, w < 65536
  | [], _, w, hw => by simp [toWords16] at hw
  | [b], h, w, hw => by
    simp [toWords16] at hw
    have := h b (by simp)
    omega
  | b0 :: b1 :: rest, h, w, hw => by
    simp only [toWords16, List.mem_cons] at hw
    rcases hw with h1 | h2
    · have hb0 := h b0 (by simp)
      have hb1 := h b1 (by simp)
      omega
    · exact toWords16_mem_lt rest (fun b hb => h b (by simp [hb])) w h2

theorem toWords16_length : ∀ bs : List Nat, (toWords16 bs).length = (bs.length + 1) / 2
  | [] => by simp [toWords16]
  | [b] => by simp [toWords16]
  | b0 :: b1 :: rest => by
    simp only [toWords16, List.length_cons]
    rw [toWords16_length rest]
    omega

theorem sum_le_of_mem_lt (ws : List Nat) (h : ∀ w ∈ ws, w < 65536) :
    ws.sum ≤ ws.length * 65535 := by
  induction ws with
  | nil => simp
  | cons x xs ih =>
    simp only [List.sum_cons, List.length_cons]
    have hx := h x (by simp)
    have := ih (fun w hw => h w (by simp [hw]))
    omega

/-! ## Claim theorems: ICMP codec -/

/-- C1: for every identifier, sequence and payload, recomputing
`icmp_checksum` over the packet built by `icmp_build_echo` with its
checksum field zeroed yields exactly the checksum value embedded in the
packet: the build writes the RFC 1071 checksum of the zero-checksum
header-plus-payload into the checksum field. -/
theorem build_echo_checksum_embedded (id seq : Nat) (payload : List Nat) :
    icmp_checksum (zeroChecksumField (icmp_build_echo id seq payload)) =
      embeddedChecksum (icmp_build_echo id seq payload) := by
  simp only [icmp_build_echo, zeroChecksumField, embeddedChecksum, List.set,
    List.getD_cons_succ, List.getD_cons_zero]
  omega

/-- The words of a packet whose first two header bytes are `8` and `0`
followed by six more header bytes and the payload. -/
theorem toWords16_header (b2 b3 b4 b5 b6 b7 : Nat) (payload : List Nat) :
    toWords16 (8 :: 0 :: b2 :: b3 :: b4 :: b5 :: b6 :: b7 :: payload)
      = 8 :: (b2 + 256 * b3) :: (b4 + 256 * b5) :: (b6 + 256 * b7) :: toWords16 payload := by
  simp [toWords16]

/-- Core of the verification identity: inserting the complement of the
folded sum of a packet into its (previously zero) second word makes the
whole packet fold to `0xFFFF`, so its checksum recomputes to `0`. -/
theorem verify_core (w0 w2 w3 c : Nat) (L : List Nat)
    (hw0 : w0 < 65536) (hw2 : w2 < 65536) (hw3 : w3 < 65536)
    (hc : c = (4294967295 - fold1071 (sum32 (w0 :: 0 :: w2 :: w3 :: L))) % 65536)
    (hLw : ∀ w ∈ L, w < 65536) (hLlen : L.length ≤ 32768) :
    (4294967295 - fold1071 (sum32 (w0 :: c :: w2 :: w3 :: L))) % 65536 = 0 := by
  have hLsum : L.sum ≤ 32768 * 65535 :=
    le_trans (sum_le_of_mem_lt L hLw) (Nat.mul_le_mul_right _ hLlen)
  have hbase : (w0 :: 0 :: w2 :: w3 :: L).sum = w0 + w2 + w3 + L.sum := by
    simp only [List.sum_cons]
    omega
  have hbaselt : (w0 :: 0 :: w2 :: w3 :: L).sum < 4294967296 := by
    rw [hbase]; omega
  rw [sum32_eq_sum _ hbaselt] at hc
  have hFlt := fold1071_lt (w0 :: 0 :: w2 :: w3 :: L).sum
  have hFle := fold1071_le (w0 :: 0 :: w2 :: w3 :: L).sum
  have hFmod := fold1071_mod (w0 :: 0 :: w2 :: w3 :: L).sum
  have hcval : c = 65535 - fold1071 (w0 :: 0 :: w2 :: w3 :: L).sum := by omega
  rw [hcval]
  have hsum2 : (w0 :: (65535 - fold1071 (w0 :: 0 :: w2 :: w3 :: L).sum) :: w2 :: w3 :: L).sum
      = (w0 :: 0 :: w2 :: w3 :: L).sum + (65535 - fold1071 (w0 :: 0 :: w2 :: w3 :: L).sum) := by
    simp only [List.sum_cons]
    omega
  have hlt2 : (w0 :: (65535 - fold1071 (w0 :: 0 :: w2 :: w3 :: L).sum) :: w2 :: w3 :: L).sum
      < 4294967296 := by
    rw [hsum2, hbase]; omega
  rw [sum32_eq_sum _ hlt2, hsum2]
  have hdvd : 65535 ∣ ((w0 :: 0 :: w2 :: w3 :: L).sum
      + (65535 - fold1071 (w0 :: 0 :: w2 :: w3 :: L).sum)) := by omega
  have hpos : 0 < (w0 :: 0 :: w2 :: w3 :: L).sum
      + (65535 - fold1071 (w0 :: 0 :: w2 :: w3 :: L).sum) := by omega
  rw [fold1071_eq_ffff _ hpos hdvd]

/-- C9: every packet built by `icmp_build_echo` passes RFC 1071
verification: `icmp_checksum` over the complete packet, checksum field in
place, returns 0.  The payload is a byte list; its length is bounded so
that the 32-bit accumulator of the C code cannot wrap (the program itself
only ever builds packets of at most 64 bytes). -/
theorem build_echo_verifies (id seq : Nat) (payload : List Nat)
    (hb : ∀ b ∈ payload, b < 256) (hl : payload.length ≤ 65535) :
    icmp_checksum (icmp_build_echo id seq payload) = 0 := by
  simp only [icmp_build_echo, icmp_checksum, toWords16_header, Nat.mul_zero, Nat.add_zero,
    Nat.mod_add_div]
  exact verify_core 8 ((id % 65536) / 256 + 256 * (id % 256))
    ((seq % 65536) / 256 + 256 * (seq % 256))
    _ (toWords16 payload) (by omega) (by omega) (by omega) rfl
    (toWords16_mem_lt payload hb) (by rw [toWords16_length]; omega)

/-- Witness for C9 at a concrete identifier, sequence and payload. -/
theorem build_echo_verifies_witness :
    icmp_checksum (icmp_build_echo 4660 1 [97, 98, 99]) = 0 :=
  build_echo_verifies 4660 1 [97, 98, 99] (by decide) (by decide)

/-- C4: `icmp_parse_response` fails (models the `*out_type = -1; return -1`
branches) exactly when the buffer is shorter than a 20-byte IPv4 header or
shorter than the IP header length (IHL × 4, IHL the low nibble of byte 0)
plus the 8-byte ICMP header; otherwise it succeeds and returns precisely
the byte at offset IHL × 4, so a hand-built IP+ICMP buffer with a known
type byte yields exactly that type. -/
theorem parse_response_spec (packet : List Nat) :
    (icmp_parse_response packet = none ↔
      packet.length < 20 ∨ packet.length < ((packet.getD 0 0) % 16) * 4 + 8)
    ∧ (20 ≤ packet.length → ((packet.getD 0 0) % 16) * 4 + 8 ≤ packet.length →
        icmp_parse_response packet = some (packet.getD (((packet.getD 0 0) % 16) * 4) 0)) := by
  constructor
  · simp only [icmp_parse_response]
    split_ifs with h1 h2
    · exact iff_of_true rfl (Or.inl h1)
    · exact iff_of_true rfl (Or.inr h2)
    · exact iff_of_false (by simp) (by omega)
  · intro h1 h2
    simp only [icmp_parse_response]
    split_ifs with g1 g2
    · omega
    · omega
    · rfl

/-- Witness for C4: a 28-byte buffer (IHL = 5, so a 20-byte IP header)
whose ICMP type byte at offset 20 is 11 (Time Exceeded) parses to 11. -/
theorem parse_response_spec_witness :
    icmp_parse_response (69 :: List.replicate 19 0 ++ [11, 0, 205, 60, 18, 52, 0, 1]) = some 11 := by
  have h := (parse_response_spec (69 :: List.replicate 19 0 ++ [11, 0, 205, 60, 18, 52, 0, 1])).2
    (by decide) (by decide)
  simpa using h

/-! ## Socket primitives (src/net/net.c)

The OS interactions of `net_tcp_connect` and `net_icmp_raw_socket` are
modelled by an environment record carrying the values the system calls
would return; the functions below are the exact decision structure of the
C code over that environment.  stderr output is modelled as a list of
diagnostic lines (`perror` is represented by its fixed prefix string; the
platform-dependent `strerror` suffix is omitted). -/

def EINPROGRESS : Nat := 115

def EPERM : Nat := 1

/-- Results of the system calls `net_tcp_connect` makes, in call order. -/
structure TcpEnv where
  socketRet : Int
  fcntlGetRet : Int
  fcntlSetRet : Int
  connectRet : Int
  connectErrno : Nat
  selectRet : Int
  getsockoptRet : Int
  soError : Nat
deriving DecidableEq

/-- `net_tcp_connect`: create a socket, make it non-blocking, connect;
on `EINPROGRESS` wait for writability with `select`; on writability read
the pending `SO_ERROR`.  Returns the socket fd on success and -1 on every
failure path (socket/fcntl failure, immediate connect error, timeout or
select error, getsockopt failure, non-zero pending error). -/
def net_tcp_connect (e : TcpEnv) : Int :=
  if e.socketRet < 0 then -1
  else if e.fcntlGetRet < 0 then -1
  else if e.fcntlSetRet < 0 then -1
  else if e.connectRet = 0 then e.socketRet
  else if e.connectErrno ≠ EINPROGRESS then -1
  else if e.selectRet ≤ 0 then -1
  else if e.getsockoptRet < 0 then -1
  else if e.soError ≠ 0 then -1
  else e.socketRet

/-- A run in which the connect stays pending and the `select` wait elapses
with no event (the spec's `Filtered` situation). -/
def tcpTimeoutEnv : TcpEnv :=
  { socketRet := 3, fcntlGetRet := 2, fcntlSetRet := 0, connectRet := -1,
    connectErrno := EINPROGRESS, selectRet := 0, getsockoptRet := 0, soError := 0 }

/-- A run in which the socket becomes writable and the pending socket
error is `ECONNREFUSED` = 111 (the spec's `Refused` situation). -/
def tcpRefusedEnv : TcpEnv :=
  { socketRet := 3, fcntlGetRet := 2, fcntlSetRet := 0, connectRet := -1,
    connectErrno := EINPROGRESS, selectRet := 1, getsockoptRet := 0, soError := 111 }

/-- C2 counterexample: a wait that elapses with no event and a non-zero
pending socket error produce the identical outcome -1, so the caller of
`net_tcp_connect` cannot distinguish `Filtered` from `Refused` (nor from
any other failure) as the claim states. -/
theorem tcp_connect_not_three_way :
    net_tcp_connect tcpTimeoutEnv = -1 ∧ net_tcp_connect tcpRefusedEnv = -1 ∧
      net_tcp_connect tcpTimeoutEnv = net_tcp_connect tcpRefusedEnv := by
  refine ⟨?_, ?_, ?_⟩ <;> decide

/-- C2 amended: `net_tcp_connect` returns the socket handle when the
connect completes immediately or the pending socket error read after
writability is zero, and returns -1 alike for a wait that elapses with no
event, for a non-zero pending socket error, and for the other failure
paths — the outcome is two-way, not three-way. -/
theorem tcp_connect_outcomes (e : TcpEnv)
    (hsock : 0 ≤ e.socketRet) (hget : 0 ≤ e.fcntlGetRet) (hset : 0 ≤ e.fcntlSetRet) :
    (e.connectRet = 0 → net_tcp_connect e = e.socketRet)
    ∧ (e.connectRet ≠ 0 → e.connectErrno = EINPROGRESS → 0 < e.selectRet →
        0 ≤ e.getsockoptRet → e.soError = 0 → net_tcp_connect e = e.socketRet)
    ∧ (e.connectRet ≠ 0 → e.connectErrno = EINPROGRESS → e.selectRet = 0 →
        net_tcp_connect e = -1)
    ∧ (e.connectRet ≠ 0 → e.connectErrno = EINPROGRESS → 0 < e.selectRet →
        0 ≤ e.getsockoptRet → e.soError ≠ 0 → net_tcp_connect e = -1)
    ∧ (e.connectRet ≠ 0 → e.connectErrno ≠ EINPROGRESS → net_tcp_connect e = -1) := by
  refine ⟨?_, ?_, ?_, ?_, ?_⟩ <;> intros <;> simp only [net_tcp_connect] <;>
    split_ifs <;> first | rfl | omega

/-- Witness for the amended C2 theorem: a refused connection on a
concrete environment yields -1. -/
theorem tcp_connect_outcomes_witness : net_tcp_connect tcpRefusedEnv = -1 :=
  (tcp_connect_outcomes tcpRefusedEnv (by decide) (by decide) (by decide)).2.2.2.1
    (by decide) (by decide) (by decide) (by decide) (by decide)

/-- The two stderr lines `net_icmp_raw_socket` prints when raw-socket
creation fails with `EPERM`. -/
def permDeniedMsgs : List String :=
  ["Error: ICMP raw socket requires root privileges",
   "       Run with: sudo ./wirefish --trace ..."]

/-- `net_icmp_raw_socket`: create a raw ICMP socket; on failure print a
dedicated privilege hint if `errno == EPERM`, otherwise a generic
`perror` line, and return -1; on success return the fd with no output. -/
def net_icmp_raw_socket (socketRet : Int) (errno : Nat) : Int × List String :=
  if socketRet < 0 then
    if errno = EPERM then (-1, permDeniedMsgs)
    else (-1, ["socket IPPROTO_ICMP"])
  else (socketRet, [])

/-- C7: when raw-socket creation fails, the `EPERM` case produces the
user-actionable privilege-escalation diagnostic, every other cause the
generic one, and the two outcomes are distinguishable. -/
theorem raw_socket_perm_denied (socketRet : Int) (errno : Nat) (hfail : socketRet < 0) :
    (errno = EPERM → net_icmp_raw_socket socketRet errno = (-1, permDeniedMsgs))
    ∧ (errno ≠ EPERM → net_icmp_raw_socket socketRet errno = (-1, ["socket IPPROTO_ICMP"]))
    ∧ permDeniedMsgs ≠ ["socket IPPROTO_ICMP"] := by
  refine ⟨?_, ?_, by decide⟩ <;> intro h <;> simp [net_icmp_raw_socket, hfail, h]

/-- Witness for C7: `socket` failing with `EPERM` on a concrete
environment yields -1 plus the privilege hint. -/
theorem raw_socket_perm_denied_witness :
    net_icmp_raw_socket (-1) 1 = (-1, permDeniedMsgs) :=
  (raw_socket_perm_denied (-1) 1 (by decide)).1 (by decide)

/-! ## Traceroute engine (src/tracer/tracer.c, model.h, cli.h)

`tracer_run` interacts with the OS per TTL (set TTL, `sendto`, `select`,
`recvfrom`).  Those interactions are abstracted into a `TraceEnv`: one
`HopEvent` per TTL value describing what the network did, plus success
flags for target resolution and raw-socket creation.  Everything else —
the loop structure, hop construction, early exit on Echo-Reply, append
with capacity doubling, error returns — is translated directly from the
C code. -/

/-- `Hop` from model.h: hop number, host label, address text, round-trip
time in ms (-1 on timeout), timeout flag. -/
structure Hop where
  hop : Int
  host : String
  ip : String
  rtt_ms : Int
  timeout : Bool
deriving DecidableEq, Repr

/-- `TraceRoute` from model.h: the rows array (its live `len` prefix) and
the allocated capacity. -/
structure TraceRoute where
  rows : List Hop
  cap : Nat
deriving DecidableEq, Repr

/-- The fields of `CommandLine` (cli.h) the tracer reads. -/
structure CommandLine where
  target : String
  ttl_start : Int
  ttl_max : Int

/-- What the network does at one TTL probe: `sendto` fails, the 1-second
`select` elapses with no event, `recvfrom` fails, or a datagram arrives
(its bytes, the textual source address, and the measured elapsed ms). -/
inductive HopEvent where
  | sendFail
  | timeout
  | recvFail
  | reply (pkt : List Nat) (ip : String) (rtt : Int)
deriving DecidableEq

/-- OS behaviour for one whole trace run. -/
structure TraceEnv where
  resolveOk : Bool
  sockOk : Bool
  hop : Int → HopEvent

/-- `#define ICMP_ID 0x1234`. -/
def ICMP_ID : Nat := 4660

/-- `tracer_append`: double the capacity (from 16) when full, then store
the hop at index `len` and bump `len`. -/
def tracer_append (route : TraceRoute) (h : Hop) : TraceRoute :=
  { rows := route.rows ++ [h],
    cap := if route.rows.length = route.cap then
             (if route.cap = 0 then 16 else route.cap * 2)
           else route.cap }

/-- The hop recorded when the reply wait elapses (`sel == 0`) or
`recvfrom` fails: address "*", host "?", rtt -1, timed out. -/
def timeoutHop (ttl : Int) : Hop :=
  { hop := ttl, host := "?", ip := "*", rtt_ms := -1, timeout := true }

/-- The hop recorded when a datagram arrives: the sender's address is
both the address and the host label (no reverse DNS), rtt measured. -/
def replyHop (ttl : Int) (ip : String) (rtt : Int) : Hop :=
  { hop := ttl, host := ip, ip := ip, rtt_ms := rtt, timeout := false }

/-- The ICMP type the tracer sees for a received buffer:
`int icmp_type = 0;` then `icmp_parse_response` either stores the type
byte or stores -1 (its return value is ignored). -/
def parsedType (pkt : List Nat) : Int :=
  match icmp_parse_response pkt with
  | none => -1
  | some t => (t : Int)

/-- The event is a reply the tracer classifies as Echo-Reply
(`icmp_type == ICMP_ECHOREPLY`, i.e. parsed type 0). -/
def isEchoReply : HopEvent → Prop
  | .reply pkt _ _ => parsedType pkt = 0
  | _ => False

/-- The per-TTL loop of `tracer_run`.  `fuel` is the number of TTL values
left (`ttl` runs to `ttl_max` inclusive).  Returns the C return code, the
hop table and the packets passed to `sendto` (paired with their TTL).
Every iteration builds and sends one Echo Request with sequence = ttl
(truncated by the `uint16_t seq` parameter); a send failure aborts the
run with -1; a timeout or receive failure records a star hop and
continues; a reply records a measured hop and stops the loop when its
parsed type is Echo-Reply (0). -/
def tracer_loop (env : Int → HopEvent) :
    Nat → Int → TraceRoute → List (Int × List Nat) →
      Int × TraceRoute × List (Int × List Nat)
  | 0, _ttl, out, sent => (0, out, sent)
  | fuel + 1, ttl, out, sent =>
    let pkt := icmp_build_echo ICMP_ID (ttl % 65536).toNat []
    let sent1 := sent ++ [(ttl, pkt)]
    match env ttl with
    | .sendFail => (-1, out, sent1)
    | .timeout => tracer_loop env fuel (ttl + 1) (tracer_append out (timeoutHop ttl)) sent1
    | .recvFail => tracer_loop env fuel (ttl + 1) (tracer_append out (timeoutHop ttl)) sent1
    | .reply pkt2 ip rtt =>
      let out1 := tracer_append out (replyHop ttl ip rtt)
      if parsedType pkt2 = 0 then (0, out1, sent1)
      else tracer_loop env fuel (ttl + 1) out1 sent1

/-- `tracer_run`: clear the output table (`memset(out, 0, sizeof(*out))`
discards whatever `init` held), resolve the target, create the raw
socket, then iterate TTLs from `ttl_start` to `ttl_max`. -/
def tracer_run (cfg : CommandLine) (env : TraceEnv) (_init : TraceRoute) :
    Int × TraceRoute × List (Int × List Nat) :=
  let out : TraceRoute := { rows := [], cap := 0 }
  if env.resolveOk = false then (-1, out, [])
  else if env.sockOk = false then (-1, out, [])
  else tracer_loop env.hop (cfg.ttl_max - cfg.ttl_start + 1).toNat cfg.ttl_start out []

/-- The consecutive hop numbers `t, t+1, ..., t+n-1`. -/
def hopRange (t : Int) : Nat → List Int
  | 0 => []
  | n + 1 => t :: hopRange (t + 1) n

theorem tracer_append_rows (route : TraceRoute) (h : Hop) :
    (tracer_append route h).rows = route.rows ++ [h] := rfl

/-- Extending the loop invariant by one processed TTL: all indexed
clauses shift from base `ttl + 1` to base `ttl` when a hop for `ttl` is
consed on and the packet for `ttl` precedes the remaining sends. -/
theorem clauses_cons (env : Int → HopEvent) (ttl : Int) (n : Nat) (h0 : Hop)
    (hs : List Hop) (ss : List (Int × List Nat)) (pkt0 : List Nat)
    (hlen : hs.length ≤ n)
    (hmap : hs.map Hop.hop = hopRange (ttl + 1) hs.length)
    (hcontent : ∀ i (hi : i < hs.length),
      env (ttl + 1 + i) = .timeout → hs[i] = timeoutHop (ttl + 1 + i))
    (hecho : ∀ i : Nat, i + 1 < hs.length → ¬ isEchoReply (env (ttl + 1 + i)))
    (hss : ∀ p ∈ ss, ttl + 1 ≤ p.1 ∧ p.1 < ttl + 1 + n
      ∧ p.2 = icmp_build_echo ICMP_ID (p.1 % 65536).toNat [])
    (hsend : ∀ i : Nat, i < hs.length → env (ttl + 1 + i) ≠ .sendFail)
    (hh0hop : h0.hop = ttl)
    (hh0t : env ttl = .timeout → h0 = timeoutHop ttl)
    (hh0send : env ttl ≠ .sendFail)
    (hh0echo : 0 < hs.length → ¬ isEchoReply (env ttl))
    (hpkt0 : pkt0 = icmp_build_echo ICMP_ID (ttl % 65536).toNat []) :
    (h0 :: hs).length ≤ n + 1
    ∧ (h0 :: hs).map Hop.hop = hopRange ttl (h0 :: hs).length
    ∧ (∀ i (hi : i < (h0 :: hs).length),
        env (ttl + i) = .timeout → (h0 :: hs)[i] = timeoutHop (ttl + i))
    ∧ (∀ i : Nat, i + 1 < (h0 :: hs).length → ¬ isEchoReply (env (ttl + i)))
    ∧ (∀ p ∈ (ttl, pkt0) :: ss, ttl ≤ p.1 ∧ p.1 < ttl + (n + 1)
        ∧ p.2 = icmp_build_echo ICMP_ID (p.1 % 65536).toNat [])
    ∧ (∀ i : Nat, i < (h0 :: hs).length → env (ttl + i) ≠ .sendFail) := by
  refine ⟨by simp; omega, ?_, ?_, ?_, ?_, ?_⟩
  · simp [hopRange, hh0hop, hmap]
  · intro i hi ht
    rcases i with _ | i
    · simp only [Nat.cast_zero, add_zero] at ht ⊢
      simpa using hh0t ht
    · simp only [List.length_cons] at hi
      have hc : ttl + ((i : Int) + 1) = ttl + 1 + i := by ring
      push_cast at ht ⊢
      rw [hc] at ht ⊢
      simpa using hcontent i (by omega) ht
  · intro i hi
    simp only [List.length_cons] at hi
    rcases i with _ | i
    · simp only [Nat.cast_zero, add_zero]
      exact hh0echo (by omega)
    · have hc : ttl + ((i : Int) + 1) = ttl + 1 + i := by ring
      push_cast
      rw [hc]
      exact hecho i (by omega)
  · intro p hp
    rcases List.mem_cons.mp hp with hp1 | hp2
    · subst hp1
      refine ⟨le_refl _, by push_cast; omega, by simpa using hpkt0⟩
    · obtain ⟨ha, hb, hc⟩ := hss p hp2
      exact ⟨by omega, by omega, hc⟩
  · intro i hi
    simp only [List.length_cons] at hi
    rcases i with _ | i
    · simpa using hh0send
    · have hc : ttl + ((i : Int) + 1) = ttl + 1 + i := by ring
      push_cast
      rw [hc]
      exact hsend i (by omega)

/-- Loop invariant of `tracer_loop`: the run appends a block of hops with
consecutive hop numbers starting at the entry TTL, at most one per unit
of fuel, records the star hop for every timed-out index, never passes a
hop whose reply parsed as Echo-Reply except as the last appended hop,
sends exactly the Echo Request built for each probed TTL, and appends no
hop for a TTL whose send failed. -/
theorem tracer_loop_spec (env : Int → HopEvent) :
    ∀ (fuel : Nat) (ttl : Int) (out : TraceRoute) (sent : List (Int × List Nat)),
      ∃ hs ss,
        (tracer_loop env fuel ttl out sent).2.1.rows = out.rows ++ hs
        ∧ (tracer_loop env fuel ttl out sent).2.2 = sent ++ ss
        ∧ hs.length ≤ fuel
        ∧ hs.map Hop.hop = hopRange ttl hs.length
        ∧ (∀ i (hi : i < hs.length),
            env (ttl + i) = .timeout → hs[i] = timeoutHop (ttl + i))
        ∧ (∀ i : Nat, i + 1 < hs.length → ¬ isEchoReply (env (ttl + i)))
        ∧ (∀ p ∈ ss, ttl ≤ p.1 ∧ p.1 < ttl + fuel
            ∧ p.2 = icmp_build_echo ICMP_ID (p.1 % 65536).toNat [])
        ∧ (∀ i : Nat, i < hs.length → env (ttl + i) ≠ .sendFail) := by
  intro fuel
  induction fuel with
  | zero =>
    intro ttl out sent
    refine ⟨[], [], by simp [tracer_loop], by simp [tracer_loop], by simp, by simp [hopRange],
      ?_, ?_, ?_, ?_⟩
    · intro i hi; simp at hi
    · intro i hi; simp at hi
    · intro p hp; simp at hp
    · intro i hi; simp at hi
  | succ n ih =>
    intro ttl out sent
    cases henv : env ttl with
    | sendFail =>
      have hstep : tracer_loop env (n + 1) ttl out sent
          = (-1, out, sent ++ [(ttl, icmp_build_echo ICMP_ID (ttl % 65536).toNat [])]) := by
        simp only [tracer_loop, henv]
      rw [hstep]
      refine ⟨[], [(ttl, icmp_build_echo ICMP_ID (ttl % 65536).toNat [])],
        by simp, rfl, by simp, by simp [hopRange], ?_, ?_, ?_, ?_⟩
      · intro i hi; simp at hi
      · intro i hi; simp at hi
      · intro p hp
        simp only [List.mem_singleton] at hp
        subst hp
        exact ⟨le_refl _, by push_cast; omega, rfl⟩
      · intro i hi; simp at hi
    | timeout =>
      obtain ⟨hs, ss, h1, h2, h3, h4, h5, h6, h7, h8⟩ :=
        ih (ttl + 1) (tracer_append out (timeoutHop ttl))
          (sent ++ [(ttl, icmp_build_echo ICMP_ID (ttl % 65536).toNat [])])
      have hstep : tracer_loop env (n + 1) ttl out sent
          = tracer_loop env n (ttl + 1) (tracer_append out (timeoutHop ttl))
              (sent ++ [(ttl, icmp_build_echo ICMP_ID (ttl % 65536).toNat [])]) := by
        simp only [tracer_loop, henv]
      obtain ⟨c1, c2, c3, c4, c5, c6⟩ :=
        clauses_cons env ttl n (timeoutHop ttl) hs ss
          (icmp_build_echo ICMP_ID (ttl % 65536).toNat [])
          h3 h4 h5 h6 h7 h8 rfl (fun _ => rfl) (by simp [henv])
          (fun _ => by simp [henv, isEchoReply]) rfl
      refine ⟨timeoutHop ttl :: hs, (ttl, icmp_build_echo ICMP_ID (ttl % 65536).toNat []) :: ss,
        ?_, ?_, c1, c2, c3, c4, c5, c6⟩
      · rw [hstep, h1, tracer_append_rows]; simp
      · rw [hstep, h2]; simp
    | recvFail =>
      obtain ⟨hs, ss, h1, h2, h3, h4, h5, h6, h7, h8⟩ :=
        ih (ttl + 1) (tracer_append out (timeoutHop ttl))
          (sent ++ [(ttl, icmp_build_echo ICMP_ID (ttl % 65536).toNat [])])
      have hstep : tracer_loop env (n + 1) ttl out sent
          = tracer_loop env n (ttl + 1) (tracer_append out (timeoutHop ttl))
              (sent ++ [(ttl, icmp_build_echo ICMP_ID (ttl % 65536).toNat [])]) := by
        simp only [tracer_loop, henv]
      obtain ⟨c1, c2, c3, c4, c5, c6⟩ :=
        clauses_cons env ttl n (timeoutHop ttl) hs ss
          (icmp_build_echo ICMP_ID (ttl % 65536).toNat [])
          h3 h4 h5 h6 h7 h8 rfl (fun _ => rfl) (by simp [henv])
          (fun _ => by simp [henv, isEchoReply]) rfl
      refine ⟨timeoutHop ttl :: hs, (ttl, icmp_build_echo ICMP_ID (ttl % 65536).toNat []) :: ss,
        ?_, ?_, c1, c2, c3, c4, c5, c6⟩
      · rw [hstep, h1, tracer_append_rows]; simp
      · rw [hstep, h2]; simp
    | reply pkt2 ip rtt =>
      by_cases hty : parsedType pkt2 = 0
      · have hstep : tracer_loop env (n + 1) ttl out sent
            = (0, tracer_append out (replyHop ttl ip rtt),
               sent ++ [(ttl, icmp_build_echo ICMP_ID (ttl % 65536).toNat [])]) := by
          simp only [tracer_loop, henv]
          rw [if_pos hty]
        rw [hstep]
        refine ⟨[replyHop ttl ip rtt], [(ttl, icmp_build_echo ICMP_ID (ttl % 65536).toNat [])],
          by rw [tracer_append_rows], rfl, by simp, by simp [hopRange, replyHop],
          ?_, ?_, ?_, ?_⟩
        · intro i hi ht
          simp only [List.length_cons, List.length_nil] at hi
          rcases i with _ | i
          · rw [show ttl + ((0 : Nat) : Int) = ttl by simp] at ht
            rw [henv] at ht
            exact absurd ht (by simp)
          · omega
        · intro i hi
          simp only [List.length_cons, List.length_nil] at hi
          omega
        · intro p hp
          simp only [List.mem_singleton] at hp
          subst hp
          exact ⟨le_refl _, by push_cast; omega, rfl⟩
        · intro i hi
          simp only [List.length_cons, List.length_nil] at hi
          rcases i with _ | i
          · simp [henv]
          · omega
      · obtain ⟨hs, ss, h1, h2, h3, h4, h5, h6, h7, h8⟩ :=
          ih (ttl + 1) (tracer_append out (replyHop ttl ip rtt))
            (sent ++ [(ttl, icmp_build_echo ICMP_ID (ttl % 65536).toNat [])])
        have hstep : tracer_loop env (n + 1) ttl out sent
            = tracer_loop env n (ttl + 1) (tracer_append out (replyHop ttl ip rtt))
                (sent ++ [(ttl, icmp_build_echo ICMP_ID (ttl % 65536).toNat [])]) := by
          simp only [tracer_loop, henv]
          rw [if_neg hty]
        obtain ⟨c1, c2, c3, c4, c5, c6⟩ :=
          clauses_cons env ttl n (replyHop ttl ip rtt) hs ss
            (icmp_build_echo ICMP_ID (ttl % 65536).toNat [])
            h3 h4 h5 h6 h7 h8 rfl (fun ht => absurd (henv ▸ ht) (by simp))
            (by simp [henv]) (fun _ => by simp [henv, isEchoReply, hty]) rfl
        refine ⟨replyHop ttl ip rtt :: hs,
          (ttl, icmp_build_echo ICMP_ID (ttl % 65536).toNat []) :: ss,
          ?_, ?_, c1, c2, c3, c4, c5, c6⟩
        · rw [hstep, h1, tracer_append_rows]; simp
        · rw [hstep, h2]; simp

/-- Consecutive hop numbers are strictly increasing. -/
theorem hopRange_chain : ∀ (n : Nat) (t : Int), List.Chain' (· < ·) (hopRange t n)
  | 0, _ => List.chain'_nil
  | 1, t => by simp [hopRange]
  | n + 2, t => by
    have ih := hopRange_chain (n + 1) (t + 1)
    simp only [hopRange] at ih ⊢
    exact List.Chain'.cons (by omega) ih

/-- When every wait elapses, the loop never aborts and appends one hop
per unit of fuel. -/
theorem tracer_loop_all_timeout (env : Int → HopEvent) (hall : ∀ t, env t = .timeout) :
    ∀ (fuel : Nat) (ttl : Int) (out : TraceRoute) (sent : List (Int × List Nat)),
      (tracer_loop env fuel ttl out sent).1 = 0
      ∧ (tracer_loop env fuel ttl out sent).2.1.rows.length = out.rows.length + fuel := by
  intro fuel
  induction fuel with
  | zero => intro ttl out sent; simp [tracer_loop]
  | succ n ih =>
    intro ttl out sent
    have hstep : tracer_loop env (n + 1) ttl out sent
        = tracer_loop env n (ttl + 1) (tracer_append out (timeoutHop ttl))
            (sent ++ [(ttl, icmp_build_echo ICMP_ID (ttl % 65536).toNat [])]) := by
      simp only [tracer_loop, hall ttl]
    rw [hstep]
    obtain ⟨ha, hb⟩ := ih (ttl + 1) (tracer_append out (timeoutHop ttl))
      (sent ++ [(ttl, icmp_build_echo ICMP_ID (ttl % 65536).toNat [])])
    refine ⟨ha, ?_⟩
    rw [hb, tracer_append_rows]
    simp
    omega

/-! ## Claim theorems: traceroute engine -/

/-- C3: a successful `tracer_run` over a TTL range `ttl_start ≤ ttl_max`
yields a hop list of length at most `ttl_max - ttl_start + 1` whose hop
numbers are exactly `ttl_start, ttl_start+1, ...` (hence strictly
ascending, starting at `ttl_start`), and no hop before the last one came
from a reply whose parsed ICMP type is Echo-Reply. -/
theorem tracer_hops_ascending (cfg : CommandLine) (env : TraceEnv) (init : TraceRoute)
    (hle : cfg.ttl_start ≤ cfg.ttl_max)
    (ret : Int) (out : TraceRoute) (sent : List (Int × List Nat))
    (hrun : tracer_run cfg env init = (ret, out, sent)) (hok : ret = 0) :
    out.rows.length ≤ (cfg.ttl_max - cfg.ttl_start + 1).toNat
    ∧ out.rows.map Hop.hop = hopRange cfg.ttl_start out.rows.length
    ∧ List.Chain' (· < ·) (out.rows.map Hop.hop)
    ∧ (∀ i : Nat, i + 1 < out.rows.length →
        ¬ isEchoReply (env.hop (cfg.ttl_start + i))) := by
  subst hok
  cases hres : env.resolveOk with
  | false => simp [tracer_run, hres] at hrun
  | true =>
    cases hsock : env.sockOk with
    | false => simp [tracer_run, hres, hsock] at hrun
    | true =>
      simp only [tracer_run, hres, hsock, Bool.true_eq_false, if_false] at hrun
      obtain ⟨hs, ss, h1, h2, h3, h4, h5, h6, h7, h8⟩ :=
        tracer_loop_spec env.hop (cfg.ttl_max - cfg.ttl_start + 1).toNat cfg.ttl_start
          { rows := [], cap := 0 } []
      rw [hrun] at h1 h2
      simp only [List.nil_append] at h1 h2
      subst h1
      exact ⟨h3, h4, h4 ▸ hopRange_chain _ _, fun i hi => h6 i hi⟩

/-- Witness for C3: an all-timeout run over TTLs 1..2 (resolution and
socket creation succeed). -/
theorem tracer_hops_ascending_witness :
    ({ rows := [timeoutHop 1, timeoutHop 2], cap := 16 } : TraceRoute).rows.length
        ≤ ((2 : Int) - 1 + 1).toNat
    ∧ ({ rows := [timeoutHop 1, timeoutHop 2], cap := 16 } : TraceRoute).rows.map Hop.hop
        = hopRange 1 ({ rows := [timeoutHop 1, timeoutHop 2], cap := 16 } : TraceRoute).rows.length := by
  have h := tracer_hops_ascending
    { target := "example.com", ttl_start := 1, ttl_max := 2 }
    { resolveOk := true, sockOk := true, hop := fun _ => .timeout }
    { rows := [], cap := 0 } (by decide) 0
    { rows := [timeoutHop 1, timeoutHop 2], cap := 16 }
    [(1, icmp_build_echo ICMP_ID 1 []), (2, icmp_build_echo ICMP_ID 2 [])]
    (by decide) rfl
  exact ⟨h.1, h.2.1⟩

/-- C5: (a) a hop whose wait elapsed is recorded exactly as
`{hop := ttl, host := "?", ip := "*", rtt_ms := -1, timeout := true}`;
(b) when every wait elapses the run still completes successfully with one
hop per TTL in the range (a timeout never aborts the run); (c) a send
failure at the very first TTL aborts the whole trace with -1. -/
theorem tracer_timeout_continues_sendfail_fatal
    (cfg : CommandLine) (env : TraceEnv) (init : TraceRoute) :
    (∀ ret out sent, tracer_run cfg env init = (ret, out, sent) →
      ∀ i (hi : i < out.rows.length), env.hop (cfg.ttl_start + i) = .timeout →
        out.rows[i] = { hop := cfg.ttl_start + i, host := "?", ip := "*",
                        rtt_ms := -1, timeout := true })
    ∧ ((∀ t, env.hop t = .timeout) → env.resolveOk = true → env.sockOk = true →
        (tracer_run cfg env init).1 = 0
        ∧ (tracer_run cfg env init).2.1.rows.length
            = (cfg.ttl_max - cfg.ttl_start + 1).toNat)
    ∧ (env.resolveOk = true → env.sockOk = true → cfg.ttl_start ≤ cfg.ttl_max →
        env.hop cfg.ttl_start = .sendFail → (tracer_run cfg env init).1 = -1) := by
  refine ⟨?_, ?_, ?_⟩
  · intro ret out sent hrun i hi ht
    cases hres : env.resolveOk with
    | false =>
      simp only [tracer_run, hres, if_true] at hrun
      cases hrun
      simp at hi
    | true =>
      cases hsock : env.sockOk with
      | false =>
        simp only [tracer_run, hres, hsock, Bool.true_eq_false, if_false, if_true] at hrun
        cases hrun
        simp at hi
      | true =>
        simp only [tracer_run, hres, hsock, Bool.true_eq_false, if_false] at hrun
        obtain ⟨hs, ss, h1, h2, h3, h4, h5, h6, h7, h8⟩ :=
          tracer_loop_spec env.hop (cfg.ttl_max - cfg.ttl_start + 1).toNat cfg.ttl_start
            { rows := [], cap := 0 } []
        rw [hrun] at h1
        simp only [List.nil_append] at h1
        subst h1
        exact h5 i hi ht
  · intro hall hres hsock
    simp only [tracer_run, hres, hsock, Bool.true_eq_false, if_false]
    obtain ⟨ha, hb⟩ := tracer_loop_all_timeout env.hop hall
      (cfg.ttl_max - cfg.ttl_start + 1).toNat cfg.ttl_start { rows := [], cap := 0 } []
    exact ⟨ha, by simpa using hb⟩
  · intro hres hsock hle hfail
    simp only [tracer_run, hres, hsock, Bool.true_eq_false, if_false]
    have hfuel : ∃ m : Nat, (cfg.ttl_max - cfg.ttl_start + 1).toNat = m + 1 := by
      refine ⟨(cfg.ttl_max - cfg.ttl_start).toNat, ?_⟩
      omega
    obtain ⟨m, hm⟩ := hfuel
    rw [hm]
    simp only [tracer_loop, hfail]

/-- Witness for C5: a two-TTL all-timeout run succeeds with two hops, on
concrete configuration and environment. -/
theorem tracer_timeout_continues_witness :
    (tracer_run { target := "example.com", ttl_start := 1, ttl_max := 2 }
        { resolveOk := true, sockOk := true, hop := fun _ => .timeout }
        { rows := [], cap := 0 }).1 = 0
    ∧ (tracer_run { target := "example.com", ttl_start := 1, ttl_max := 2 }
        { resolveOk := true, sockOk := true, hop := fun _ => .timeout }
        { rows := [], cap := 0 }).2.1.rows.length = ((2 : Int) - 1 + 1).toNat :=
  (tracer_timeout_continues_sendfail_fatal
    { target := "example.com", ttl_start := 1, ttl_max := 2 }
    { resolveOk := true, sockOk := true, hop := fun _ => .timeout }
    { rows := [], cap := 0 }).2.1 (fun _ => rfl) rfl rfl

/-- The fixed header bytes of a built Echo Request. -/
theorem build_echo_bytes (id seq : Nat) (payload : List Nat) :
    (icmp_build_echo id seq payload).getD 0 0 = 8
    ∧ (icmp_build_echo id seq payload).getD 1 0 = 0
    ∧ (icmp_build_echo id seq payload).getD 4 0 = (id % 65536) / 256
    ∧ (icmp_build_echo id seq payload).getD 5 0 = id % 256
    ∧ (icmp_build_echo id seq payload).getD 6 0 = (seq % 65536) / 256
    ∧ (icmp_build_echo id seq payload).getD 7 0 = seq % 256 := by
  simp [icmp_build_echo, List.getD_cons_succ, List.getD_cons_zero]

/-- C6: every packet passed to `sendto` during a trace (whatever the run
outcome) is the Echo Request built for the TTL being probed: type byte 8,
code byte 0, the fixed identifier 0x1234 (`htons`-stored as bytes 18, 52),
and a big-endian sequence field equal to that TTL. -/
theorem tracer_sends_echo_requests (cfg : CommandLine) (env : TraceEnv) (init : TraceRoute)
    (h1 : 1 ≤ cfg.ttl_start) (h255 : cfg.ttl_max ≤ 255)
    (ret : Int) (out : TraceRoute) (sent : List (Int × List Nat))
    (hrun : tracer_run cfg env init = (ret, out, sent)) :
    ∀ p ∈ sent, cfg.ttl_start ≤ p.1 ∧ p.1 ≤ cfg.ttl_max
      ∧ p.2 = icmp_build_echo 4660 p.1.toNat []
      ∧ p.2.getD 0 0 = 8 ∧ p.2.getD 1 0 = 0
      ∧ p.2.getD 4 0 = 18 ∧ p.2.getD 5 0 = 52
      ∧ 256 * p.2.getD 6 0 + p.2.getD 7 0 = p.1.toNat := by
  intro p hp
  cases hres : env.resolveOk with
  | false =>
    simp only [tracer_run, hres, if_true] at hrun
    cases hrun
    simp at hp
  | true =>
    cases hsock : env.sockOk with
    | false =>
      simp only [tracer_run, hres, hsock, Bool.true_eq_false, if_false, if_true] at hrun
      cases hrun
      simp at hp
    | true =>
      simp only [tracer_run, hres, hsock, Bool.true_eq_false, if_false] at hrun
      obtain ⟨hs, ss, hh1, hh2, hh3, hh4, hh5, hh6, hh7, hh8⟩ :=
        tracer_loop_spec env.hop (cfg.ttl_max - cfg.ttl_start + 1).toNat cfg.ttl_start
          { rows := [], cap := 0 } []
      rw [hrun] at hh2
      simp only [List.nil_append] at hh2
      subst hh2
      obtain ⟨ha, hb, hc⟩ := hh7 p hp
      have hlow : 1 ≤ p.1 := le_trans h1 ha
      have hhigh : p.1 ≤ cfg.ttl_max := by omega
      have hmod : (p.1 % 65536).toNat = p.1.toNat := by omega
      have hseq : p.1.toNat < 65536 := by omega
      rw [hmod] at hc
      obtain ⟨b0, b1, b4, b5, b6, b7⟩ := build_echo_bytes ICMP_ID p.1.toNat []
      rw [hc]
      refine ⟨ha, hhigh, rfl, b0, b1, ?_, ?_, ?_⟩
      · rw [b4]; rfl
      · rw [b5]; rfl
      · rw [b6, b7]; omega

/-- Witness for C6: the single packet sent when the destination answers
at the first TTL carries type 8, code 0, id bytes 18/52 and sequence 1. -/
theorem tracer_sends_echo_requests_witness :
    (1 : Int) ≤ 1 ∧ (1 : Int) ≤ 1
    ∧ icmp_build_echo ICMP_ID 1 [] = icmp_build_echo 4660 (1 : Int).toNat []
    ∧ (icmp_build_echo ICMP_ID 1 []).getD 0 0 = 8
    ∧ (icmp_build_echo ICMP_ID 1 []).getD 1 0 = 0
    ∧ (icmp_build_echo ICMP_ID 1 []).getD 4 0 = 18
    ∧ (icmp_build_echo ICMP_ID 1 []).getD 5 0 = 52
    ∧ 256 * (icmp_build_echo ICMP_ID 1 []).getD 6 0
        + (icmp_build_echo ICMP_ID 1 []).getD 7 0 = (1 : Int).toNat := by
  have h := tracer_sends_echo_requests
    { target := "localhost", ttl_start := 1, ttl_max := 1 }
    { resolveOk := true, sockOk := true, hop := fun _ => .timeout }
    { rows := [], cap := 0 } (by decide) (by decide) 0
    { rows := [timeoutHop 1], cap := 16 } [(1, icmp_build_echo ICMP_ID 1 [])]
    (by decide) (1, icmp_build_echo ICMP_ID 1 []) (by simp)
  simpa using h

/-- A degenerate configuration: `ttl_start = 10 > 1 = ttl_max`. -/
def invalidRangeCfg : CommandLine :=
  { target := "example.com", ttl_start := 10, ttl_max := 1 }

/-- An environment in which resolution and socket creation succeed. -/
def allOkEnv : TraceEnv :=
  { resolveOk := true, sockOk := true, hop := fun _ => .timeout }

/-- C8 counterexample: `tracer_run` with `ttl_start = 10 > 1 = ttl_max`
and a healthy environment returns success (0) with an empty hop list —
it performs no range validation and reports no `InvalidRange` error,
contradicting the claim that such a range is rejected. -/
theorem tracer_accepts_degenerate_range :
    tracer_run invalidRangeCfg allOkEnv { rows := [], cap := 0 }
      = (0, { rows := [], cap := 0 }, []) := by decide

/-- C8 amended: `tracer_run` does not validate the TTL range: whenever
`ttl_max < ttl_start` (and resolution and raw-socket creation succeed, the
socket being opened regardless), the probe loop body never runs and the
call returns success with an empty hop list and no packet sent. -/
theorem tracer_empty_range_returns_success (cfg : CommandLine) (env : TraceEnv)
    (init : TraceRoute) (hgt : cfg.ttl_max < cfg.ttl_start)
    (hres : env.resolveOk = true) (hsock : env.sockOk = true) :
    tracer_run cfg env init = (0, { rows := [], cap := 0 }, []) := by
  have hfuel : (cfg.ttl_max - cfg.ttl_start + 1).toNat = 0 := by omega
  simp [tracer_run, hres, hsock, hfuel, tracer_loop]

/-- Witness for the amended C8 theorem at the concrete degenerate
configuration. -/
theorem tracer_empty_range_returns_success_witness :
    tracer_run invalidRangeCfg allOkEnv { rows := [timeoutHop 9], cap := 16 }
      = (0, { rows := [], cap := 0 }, []) :=
  tracer_empty_range_returns_success invalidRangeCfg allOkEnv
    { rows := [timeoutHop 9], cap := 16 } (by decide) rfl rfl

/-- C10: `tracer_run` clears its output to the empty table before doing
any work — the result never depends on what the output structure held
before the call — and a failure of target resolution or raw-socket
creation returns -1 with the empty table (rows empty, capacity 0) and
nothing sent. -/
theorem tracer_resets_output (cfg : CommandLine) (env : TraceEnv) :
    (∀ init1 init2 : TraceRoute, tracer_run cfg env init1 = tracer_run cfg env init2)
    ∧ (env.resolveOk = false ∨ env.sockOk = false →
        ∀ init : TraceRoute,
          tracer_run cfg env init = (-1, { rows := [], cap := 0 }, [])) := by
  constructor
  · intro init1 init2
    rfl
  · rintro (h | h) init
    · simp [tracer_run, h]
    · cases henv : env.resolveOk with
      | false => simp [tracer_run, henv]
      | true => simp [tracer_run, henv, h]

/-- Witness for C10: a failed resolution with a dirty output structure
still yields the empty table. -/
theorem tracer_resets_output_witness :
    tracer_run { target := "nohost.invalid", ttl_start := 1, ttl_max := 30 }
        { resolveOk := false, sockOk := true, hop := fun _ => .timeout }
        { rows := [timeoutHop 3], cap := 16 }
      = (-1, { rows := [], cap := 0 }, []) :=
  (tracer_resets_output { target := "nohost.invalid", ttl_start := 1, ttl_max := 30 }
    { resolveOk := false, sockOk := true, hop := fun _ => .timeout }).2
    (Or.inl rfl) { rows := [timeoutHop 3], cap := 16 }

end Wirefish
